import Mathlib

/-!
Shallow embedding of the Masterblog post-store service
(backend/backend_app.py): an in-memory list of posts with five operations
(list-with-sort, search, create, delete, update), modelled as pure
functions from the stored collection and the request data to the new
collection and the HTTP response (body, status).
-/

open List

/-- A post record with fields id, title and content. -/
structure Post where
  id : Nat
  title : String
  content : String
deriving DecidableEq

/-- The seeded initial collection (module-level POSTS in the source). -/
def POSTS : List Post :=
  [⟨1, "First post", "This is the first post."⟩,
   ⟨2, "Second post", "This is the second post."⟩]

/-- Python truthiness of an optional query-parameter string: absent and empty are falsy. -/
def truthy : Option String → Bool
  | none => false
  | some s => !s.isEmpty

/-- Python's str.lower, modelled charwise. -/
def strLower (s : String) : String :=
  ⟨s.data.map Char.toLower⟩

/-- Test whether the first char list occurs at the very start of the second. -/
def charsLead : List Char → List Char → Bool
  | [], _ => true
  | _ :: _, [] => false
  | c :: cs, d :: ds => c == d && charsLead cs ds

/-- Test whether the first char list occurs contiguously inside the second. -/
def charsContain (needle : List Char) : List Char → Bool
  | [] => needle.isEmpty
  | d :: ds => charsLead needle (d :: ds) || charsContain needle ds

/-- Python's substring test: needle in hay. -/
def strContains (hay needle : String) : Bool :=
  charsContain needle.toList hay.toList

/-- Response body of the list-with-sort endpoint. -/
inductive GetResp
  | ok (posts : List Post)
  | invalid (msg : String)
deriving DecidableEq

/-- Sort key of a post: the requested field's value, lower-cased
(the comparison is case-insensitive). -/
def keyOf (f : String) (p : Post) : String :=
  strLower (if f == "title" then p.title else p.content)

/-- Ascending key comparison used by the sort. -/
def keyLe (f : String) (a b : Post) : Prop := keyOf f a ≤ keyOf f b

/-- Descending key comparison (direction=desc reverses the comparison). -/
def keyGe (f : String) (a b : Post) : Prop := keyOf f b ≤ keyOf f a

instance (f : String) : DecidableRel (keyLe f) :=
  fun a b => inferInstanceAs (Decidable (keyOf f a ≤ keyOf f b))

instance (f : String) : DecidableRel (keyGe f) :=
  fun a b => inferInstanceAs (Decidable (keyOf f b ≤ keyOf f a))

/-- The valid values of the sort query parameter. -/
def valid_sort_fields : List String := ["title", "content"]

/-- GET /api/posts with optional sort and direction query parameters.
Validates both parameters, then returns the collection, sorted by the
requested field when sort is truthy (Python's stable sorted with a
lower-cased key, reverse for direction=desc). -/
def get_posts (posts : List Post) (sortArg dirArg : Option String) : GetResp × Nat :=
  let sort_field := sortArg.getD ""
  let sort_direction := strLower (dirArg.getD "asc")
  if truthy sortArg && !(valid_sort_fields.contains sort_field) then
    (.invalid "Invalid sort field. Valid fields are: ['title', 'content']", 400)
  else if !(["asc", "desc"].contains sort_direction) then
    (.invalid "Invalid sort direction. Valid directions are: 'asc', 'desc'", 400)
  else
    let sorted_posts :=
      if truthy sortArg then
        if sort_direction == "desc" then insertionSort (keyGe sort_field) posts
        else insertionSort (keyLe sort_field) posts
      else posts
    (.ok sorted_posts, 200)

/-- GET /api/posts/search with optional title and content query parameters.
A post matches when each truthy query string occurs (case-insensitively)
in the corresponding field. -/
def search_posts (posts : List Post) (titleArg contentArg : Option String) :
    List Post × Nat :=
  let title_query := strLower (titleArg.getD "")
  let content_query := strLower (contentArg.getD "")
  (posts.filter fun post =>
     (if title_query.isEmpty then true
      else strContains (strLower post.title) title_query) &&
     (if content_query.isEmpty then true
      else strContains (strLower post.content) content_query),
   200)

/-- JSON body of a create request: each field may be absent. -/
structure NewPostData where
  title : Option String
  content : Option String

/-- Python's test for a missing create field: absent from the body, or falsy
(the empty string, for string values). -/
def fieldMissing : Option String → Bool
  | none => true
  | some s => s.isEmpty

/-- Field lookup in a create body by field name. -/
def getField (d : NewPostData) (f : String) : Option String :=
  if f == "title" then d.title else d.content

/-- Response body of the create endpoint. -/
inductive AddResp
  | created (p : Post)
  | missingErr (error : String) (missing_fields : List String)
deriving DecidableEq

/-- POST /api/posts: validate the body, assign the new id from the last
element of the collection (or 1 when empty), append the new post.
Returns the new collection together with the response. -/
def add_post (posts : List Post) (data : NewPostData) : List Post × AddResp × Nat :=
  let missing_fields := (["title", "content"]).filter fun f => fieldMissing (getField data f)
  if !missing_fields.isEmpty then
    (posts, .missingErr "Missing required fields" missing_fields, 400)
  else
    let new_id := match posts.getLast? with
      | some p => p.id + 1
      | none => 1
    let new_post : Post := ⟨new_id, data.title.getD "", data.content.getD ""⟩
    (posts ++ [new_post], .created new_post, 201)

/-- Response body of the delete endpoint. -/
inductive DelResp
  | deleted (message : String)
  | notFound (error : String)
deriving DecidableEq

/-- DELETE /api/posts/(post_id): locate the post by exact id; if absent,
404 naming the id; else rebuild the collection without that id. -/
def delete_post (posts : List Post) (post_id : Nat) : List Post × DelResp × Nat :=
  match posts.find? (fun post => post.id == post_id) with
  | none =>
      (posts, .notFound ("Post with id " ++ toString post_id ++ " not found."), 404)
  | some _ =>
      (posts.filter (fun post => post.id != post_id),
       .deleted ("Post with id " ++ toString post_id ++ " has been deleted successfully."),
       200)

/-- JSON body of an update request: each field may be absent. -/
structure UpdateData where
  title : Option String
  content : Option String

/-- In-place mutation of the first post carrying the given id: supplied
fields replace the old values, absent fields keep them, id unchanged. -/
def updateFirst (post_id : Nat) (d : UpdateData) : List Post → List Post
  | [] => []
  | p :: ps =>
    if p.id == post_id then
      ⟨p.id, d.title.getD p.title, d.content.getD p.content⟩ :: ps
    else p :: updateFirst post_id d ps

/-- Response body of the update endpoint. -/
inductive UpdResp
  | updated (p : Post)
  | notFound (error : String)
deriving DecidableEq

/-- PUT /api/posts/(post_id): locate the post by id; if absent, 404; else
mutate the found post in place with the supplied fields and return it. -/
def update_post (posts : List Post) (post_id : Nat) (data : UpdateData) :
    List Post × UpdResp × Nat :=
  match posts.find? (fun post => post.id == post_id) with
  | none =>
      (posts, .notFound ("Post with id " ++ toString post_id ++ " not found."), 404)
  | some p =>
      (updateFirst post_id data posts,
       .updated ⟨p.id, data.title.getD p.title, data.content.getD p.content⟩,
       200)

/-- One API request: the alphabet of the service's state machine. -/
inductive Op
  | list (sortArg dirArg : Option String)
  | search (titleArg contentArg : Option String)
  | create (data : NewPostData)
  | delete (post_id : Nat)
  | update (post_id : Nat) (data : UpdateData)

/-- Effect of one request on the stored collection (reads leave it unchanged). -/
def step (posts : List Post) : Op → List Post
  | .list _ _ => posts
  | .search _ _ => posts
  | .create d => (add_post posts d).1
  | .delete pid => (delete_post posts pid).1
  | .update pid d => (update_post posts pid d).1

/-- Run a sequence of requests from a starting collection. -/
def run (posts : List Post) (ops : List Op) : List Post :=
  ops.foldl step posts

/-- The ids along the stored sequence, in storage order. -/
def ids (posts : List Post) : List Nat := posts.map (·.id)

/-- The id of the last element of the collection, 0 when empty. -/
def lastId (posts : List Post) : Nat :=
  (posts.getLast?.map (·.id)).getD 0

/-! ### Helper lemmas on the id sequence -/

/-- In a strictly increasing list of naturals, every member is at most the last element. -/
lemma sorted_le_getLast :
    ∀ {l : List Nat}, l.Sorted (· < ·) → ∀ {x : Nat}, x ∈ l → ∀ {z : Nat},
      l.getLast? = some z → x ≤ z := by
  intro l
  induction l with
  | nil => intro _ x hx; cases hx
  | cons a t ih =>
    intro h x hx z hz
    cases t with
    | nil =>
      simp only [getLast?_singleton, Option.some.injEq] at hz
      simp only [mem_singleton] at hx
      omega
    | cons b t2 =>
      rw [getLast?_cons_cons] at hz
      have ht := (sorted_cons.mp h).2
      rcases mem_cons.mp hx with rfl | hx2
      · have hb : x < b := (sorted_cons.mp h).1 b (mem_cons_self b t2)
        have hbz := ih ht (mem_cons_self b t2) hz
        omega
      · exact ih ht hx2 hz

/-- The invariant: the ids along the stored sequence are strictly increasing. -/
def StoreInv (posts : List Post) : Prop := (ids posts).Sorted (· < ·)

lemma ids_append (l1 l2 : List Post) : ids (l1 ++ l2) = ids l1 ++ ids l2 := by
  simp [ids]

lemma storeInv_add_post (posts : List Post) (d : NewPostData) (h : StoreInv posts) :
    StoreInv (add_post posts d).1 := by
  unfold add_post
  by_cases hm : ((["title", "content"] : List String).filter fun f =>
      fieldMissing (getField d f)).isEmpty
  · rcases hl : posts.getLast? with _ | q
    · have hnil : posts = [] := getLast?_eq_none_iff.mp hl
      subst hnil
      simp [hm, StoreInv, ids]
    · simp only [hm, Bool.not_true, Bool.false_eq_true, if_false, hl]
      unfold StoreInv
      rw [ids_append]
      rw [show Sorted (· < ·) (ids posts ++ ids [⟨q.id + 1, d.title.getD "",
            d.content.getD ""⟩]) ↔ _ from pairwise_append]
      refine ⟨h, sorted_singleton _, ?_⟩
      intro x hx y hy
      simp only [ids, map_cons, map_nil, mem_singleton] at hy
      subst hy
      have hq : (ids posts).getLast? = some q.id := by
        rw [ids, getLast?_map, hl]
        rfl
      have := sorted_le_getLast h hx hq
      omega
  · simpa [hm] using h

lemma storeInv_delete_post (posts : List Post) (pid : Nat) (h : StoreInv posts) :
    StoreInv (delete_post posts pid).1 := by
  unfold delete_post
  cases hf : posts.find? (fun post => post.id == pid) with
  | none => simpa using h
  | some p =>
      show Sorted (· < ·) ((posts.filter fun post => post.id != pid).map (·.id))
      have hsub : (posts.filter fun post => post.id != pid) <+ posts :=
        filter_sublist posts
      exact Pairwise.sublist (hsub.map (·.id)) h

lemma ids_updateFirst (pid : Nat) (d : UpdateData) :
    ∀ l : List Post, ids (updateFirst pid d l) = ids l := by
  intro l
  induction l with
  | nil => rfl
  | cons p ps ih =>
    by_cases hp : (p.id == pid) = true
    · simp [updateFirst, hp, ids]
    · simp only [updateFirst, hp, Bool.false_eq_true, if_false]
      simp only [ids, map_cons] at ih ⊢
      rw [ih]

lemma storeInv_update_post (posts : List Post) (pid : Nat) (d : UpdateData) (h : StoreInv posts) :
    StoreInv (update_post posts pid d).1 := by
  unfold update_post
  cases hf : posts.find? (fun post => post.id == pid) with
  | none => simpa using h
  | some p =>
      unfold StoreInv
      simp only
      rw [ids_updateFirst]
      exact h

lemma storeInv_step (posts : List Post) (op : Op) (h : StoreInv posts) : StoreInv (step posts op) := by
  cases op with
  | list _ _ => exact h
  | search _ _ => exact h
  | create d => exact storeInv_add_post _ d h
  | delete pid => exact storeInv_delete_post _ pid h
  | update pid d => exact storeInv_update_post _ pid d h

lemma storeInv_run (ops : List Op) : ∀ posts, StoreInv posts → StoreInv (run posts ops) := by
  induction ops with
  | nil => intro posts h; exact h
  | cons op t ih => intro posts h; exact ih _ (storeInv_step _ op h)

lemma storeInv_init : StoreInv POSTS := by
  show (ids POSTS).Sorted (· < ·)
  decide

/-- C2: along every sequence of the five operations starting from the initial
two-post state, the id field is unique across the collection: no reachable
state contains two posts with the same id. -/
theorem reachable_ids_nodup (ops : List Op) : (ids (run POSTS ops)).Nodup :=
  (storeInv_run ops POSTS storeInv_init).nodup

/-- C9: in every state reachable from the initial two-post collection, the ids
along the stored sequence are strictly increasing; hence every post's id is at
most the id of the last element, and the ids stay duplicate-free, so the
last-element-based id policy never produces a duplicate id. -/
theorem reachable_ids_sorted_lastId (ops : List Op) :
    (ids (run POSTS ops)).Sorted (· < ·) ∧
    (∀ p, p ∈ run POSTS ops → p.id ≤ lastId (run POSTS ops)) ∧
    (ids (run POSTS ops)).Nodup := by
  have hs := storeInv_run ops POSTS storeInv_init
  refine ⟨hs, ?_, hs.nodup⟩
  intro p hp
  rcases hl : (run POSTS ops).getLast? with _ | q
  · rw [getLast?_eq_none_iff.mp hl] at hp
    exact absurd hp (not_mem_nil p)
  · have hq : (ids (run POSTS ops)).getLast? = some q.id := by
      rw [ids, getLast?_map, hl]
      rfl
    have hpm : p.id ∈ ids (run POSTS ops) := mem_map_of_mem (·.id) hp
    have hle := sorted_le_getLast hs hpm hq
    simpa [lastId, hl] using hle

/-- Closed instance of the C9 theorem: after one create and one delete, the
ids are strictly increasing, the surviving second seed post's id is at most
the last id, and the ids are duplicate-free. -/
theorem reachable_ids_sorted_lastId_witness :
    (ids (run POSTS [Op.create ⟨some "T", some "C"⟩, Op.delete 1])).Sorted (· < ·) ∧
    (⟨2, "Second post", "This is the second post."⟩ : Post).id ≤
      lastId (run POSTS [Op.create ⟨some "T", some "C"⟩, Op.delete 1]) ∧
    (ids (run POSTS [Op.create ⟨some "T", some "C"⟩, Op.delete 1])).Nodup := by
  have h := reachable_ids_sorted_lastId [Op.create ⟨some "T", some "C"⟩, Op.delete 1]
  exact ⟨h.1, h.2.1 _ (by decide), h.2.2⟩

/-! ### Create: id assignment and validation -/

/-- With both fields supplied and non-empty, create appends a post whose id is
the last element's id plus one (1 on an empty collection) and returns it with 201. -/
lemma add_post_valid_eq (posts : List Post) (t c : String) (ht : t ≠ "") (hc : c ≠ "") :
    add_post posts ⟨some t, some c⟩ =
      (posts ++ [⟨if posts.isEmpty then 1 else lastId posts + 1, t, c⟩],
       .created ⟨if posts.isEmpty then 1 else lastId posts + 1, t, c⟩, 201) := by
  have ht' : t.isEmpty = false := by
    rw [← Bool.not_eq_true, String.isEmpty_iff]
    exact ht
  have hc' : c.isEmpty = false := by
    rw [← Bool.not_eq_true, String.isEmpty_iff]
    exact hc
  rcases hl : posts.getLast? with _ | q
  · have hnil := getLast?_eq_none_iff.mp hl
    subst hnil
    simp [add_post, getField, fieldMissing, ht', hc', lastId]
  · have hne : posts ≠ [] := by
      intro h0
      rw [h0] at hl
      cases hl
    have hempty : posts.isEmpty = false := isEmpty_eq_false.mpr hne
    simp [add_post, getField, fieldMissing, ht', hc', hl, hempty, lastId]

/-- C1: create assigns the new id as (id of the last element) + 1, or 1 on an
empty collection, appends the record at the end and returns it with 201; in the
concrete scenario, from ids 1,2 a create gives id 3, deleting id 1 succeeds,
the next create gives id 4, and after emptying the collection a create gives id 1. -/
theorem add_post_id_policy :
    (∀ (posts : List Post) (t c : String), t ≠ "" → c ≠ "" →
       add_post posts ⟨some t, some c⟩ =
         (posts ++ [⟨if posts.isEmpty then 1 else lastId posts + 1, t, c⟩],
          .created ⟨if posts.isEmpty then 1 else lastId posts + 1, t, c⟩, 201)) ∧
    (add_post POSTS ⟨some "T", some "C"⟩).2 = (.created ⟨3, "T", "C"⟩, 201) ∧
    (delete_post (add_post POSTS ⟨some "T", some "C"⟩).1 1).2.2 = 200 ∧
    (add_post (delete_post (add_post POSTS ⟨some "T", some "C"⟩).1 1).1
        ⟨some "X", some "Y"⟩).2 = (.created ⟨4, "X", "Y"⟩, 201) ∧
    run POSTS [Op.delete 1, Op.delete 2] = [] ∧
    (add_post (run POSTS [Op.delete 1, Op.delete 2]) ⟨some "A", some "B"⟩).2 =
      (.created ⟨1, "A", "B"⟩, 201) :=
  ⟨add_post_valid_eq, by decide, by decide, by decide, by decide, by decide⟩

/-- Closed instance of the C1 theorem at the initial state. -/
theorem add_post_id_policy_witness :
    add_post POSTS ⟨some "T", some "C"⟩ =
      (POSTS ++ [⟨if POSTS.isEmpty then 1 else lastId POSTS + 1, "T", "C"⟩],
       .created ⟨if POSTS.isEmpty then 1 else lastId POSTS + 1, "T", "C"⟩, 201) :=
  add_post_id_policy.1 POSTS "T" "C" (by decide) (by decide)

/-- C5: create fails with 400 and a body listing exactly the missing-or-empty
fields (title before content) iff title or content is absent or empty, leaving
the collection unchanged; with both fields present and non-empty it returns 201. -/
theorem add_post_missing_fields_spec :
    (∀ (posts : List Post) (d : NewPostData),
       fieldMissing d.title = true ∨ fieldMissing d.content = true →
       add_post posts d =
         (posts, .missingErr "Missing required fields"
            ((if fieldMissing d.title then ["title"] else []) ++
             (if fieldMissing d.content then ["content"] else [])), 400)) ∧
    (∀ (posts : List Post) (d : NewPostData),
       fieldMissing d.title = false → fieldMissing d.content = false →
       (add_post posts d).2.2 = 201) ∧
    (add_post POSTS ⟨some "", some "C"⟩).2 =
      (.missingErr "Missing required fields" ["title"], 400) ∧
    (add_post POSTS ⟨some "", some ""⟩).2 =
      (.missingErr "Missing required fields" ["title", "content"], 400) := by
  refine ⟨?_, ?_, by decide, by decide⟩
  · intro posts d hmiss
    cases ht : fieldMissing d.title <;> cases hc : fieldMissing d.content
    · rw [ht, hc] at hmiss
      simp at hmiss
    · simp [add_post, getField, ht, hc]
    · simp [add_post, getField, ht, hc]
    · simp [add_post, getField, ht, hc]
  · intro posts d ht hc
    simp [add_post, getField, ht, hc]

/-- Closed instance of the C5 theorem: an absent title is reported, the
collection is unchanged, and the status is 400. -/
theorem add_post_missing_fields_spec_witness :
    add_post POSTS ⟨none, some "C"⟩ =
      (POSTS, .missingErr "Missing required fields"
         ((if fieldMissing (none : Option String) then ["title"] else []) ++
          (if fieldMissing (some "C") then ["content"] else [])), 400) :=
  add_post_missing_fields_spec.1 POSTS ⟨none, some "C"⟩ (Or.inl (by decide))

/-! ### Search -/

/-- Whether a field value matches an optional search query: an absent or empty
query matches everything, otherwise the lower-cased query must occur inside
the lower-cased field value. -/
def matchQ (q : Option String) (s : String) : Bool :=
  let lq := strLower (q.getD "")
  if lq.isEmpty then true else strContains (strLower s) lq

/-- C6: search always returns 200 together with exactly the subsequence of
stored posts whose title and content each contain the respective query
case-insensitively (an absent query matches everything); with no query
parameters it returns all posts. -/
theorem search_posts_spec :
    (∀ (posts : List Post) (tArg cArg : Option String),
       (search_posts posts tArg cArg).2 = 200 ∧
       (search_posts posts tArg cArg).1 <+ posts ∧
       (∀ p, p ∈ (search_posts posts tArg cArg).1 ↔
          p ∈ posts ∧ matchQ tArg p.title = true ∧ matchQ cArg p.content = true)) ∧
    (∀ posts : List Post, search_posts posts none none = (posts, 200)) := by
  constructor
  · intro posts tArg cArg
    refine ⟨rfl, filter_sublist posts, ?_⟩
    intro p
    rw [show (search_posts posts tArg cArg).1 =
        posts.filter (fun post =>
          matchQ tArg post.title && matchQ cArg post.content) from rfl]
    rw [mem_filter, Bool.and_eq_true]
  · intro posts
    have h1 : (search_posts posts none none).1 = posts :=
      filter_eq_self.mpr fun a _ => rfl
    exact Prod.ext h1 rfl

/-- Closed instance of the C6 theorem: an upper-case query matches the
lower-case seeded title. -/
theorem search_posts_spec_witness :
    (search_posts POSTS (some "FIRST") none).2 = 200 ∧
    ((⟨1, "First post", "This is the first post."⟩ : Post) ∈
       (search_posts POSTS (some "FIRST") none).1 ↔
     (⟨1, "First post", "This is the first post."⟩ : Post) ∈ POSTS ∧
       matchQ (some "FIRST") "First post" = true ∧
       matchQ none "This is the first post." = true) :=
  ⟨(search_posts_spec.1 POSTS (some "FIRST") none).1,
   (search_posts_spec.1 POSTS (some "FIRST") none).2.2
     ⟨1, "First post", "This is the first post."⟩⟩

/-! ### Delete -/

/-- Under id-uniqueness, removing an existing id by filtering drops exactly
one element. -/
lemma filter_ne_length (posts : List Post) (pid : Nat)
    (hnd : (ids posts).Nodup) (hex : ∃ p ∈ posts, p.id = pid) :
    (posts.filter fun p => p.id != pid).length = posts.length - 1 := by
  induction posts with
  | nil =>
    rcases hex with ⟨p, hp, _⟩
    cases hp
  | cons a t ih =>
    rcases hex with ⟨p, hp, hpid⟩
    have h0 : ids (a :: t) = a.id :: ids t := rfl
    rw [h0, nodup_cons] at hnd
    by_cases ha : a.id = pid
    · have hall : ∀ q ∈ t, ((fun p => p.id != pid) q) = true := by
        intro q hq
        simp only [bne_iff_ne, ne_eq]
        intro he
        exact hnd.1 (by rw [ha, ← he]; exact mem_map_of_mem (·.id) hq)
      rw [filter_cons, if_neg (by simp [ha]), filter_eq_self.mpr hall]
      simp
    · have hp' : p ∈ t := by
        rcases mem_cons.mp hp with rfl | h
        · exact absurd hpid ha
        · exact h
      have hlen := ih hnd.2 ⟨p, hp', hpid⟩
      rw [filter_cons, if_pos (by simp [ha]), length_cons, hlen, length_cons]
      have hpos : 0 < t.length := length_pos.mpr (ne_nil_of_mem hp')
      omega

/-- C7: delete with an unknown id fails with 404 naming the id and leaves the
collection unchanged; with an existing id it removes exactly the record with
that id (one record, under id-uniqueness), keeps every other post in their
relative order, and returns a confirmation message with 200. -/
theorem delete_post_spec (posts : List Post) (pid : Nat) :
    ((∀ p ∈ posts, p.id ≠ pid) →
       delete_post posts pid =
         (posts, .notFound ("Post with id " ++ toString pid ++ " not found."), 404)) ∧
    ((∃ p ∈ posts, p.id = pid) →
       (delete_post posts pid).1 = posts.filter (fun p => p.id != pid) ∧
       (delete_post posts pid).1 <+ posts ∧
       (∀ p ∈ posts, p.id ≠ pid → p ∈ (delete_post posts pid).1) ∧
       (∀ p ∈ (delete_post posts pid).1, p.id ≠ pid) ∧
       ((ids posts).Nodup → (delete_post posts pid).1.length = posts.length - 1) ∧
       (delete_post posts pid).2 =
         (.deleted ("Post with id " ++ toString pid ++
            " has been deleted successfully."), 200)) := by
  constructor
  · intro hall
    have hf : posts.find? (fun post => post.id == pid) = none := by
      rw [find?_eq_none]
      intro x hx
      simp [hall x hx]
    simp [delete_post, hf]
  · intro hex
    have hf : (posts.find? (fun post => post.id == pid)).isSome = true := by
      rw [find?_isSome]
      rcases hex with ⟨p, hp, hpid⟩
      exact ⟨p, hp, by simp [hpid]⟩
    rcases hsome : posts.find? (fun post => post.id == pid) with _ | q
    · rw [hsome] at hf
      cases hf
    · have h1 : (delete_post posts pid).1 = posts.filter fun p => p.id != pid := by
        simp [delete_post, hsome]
      refine ⟨h1, ?_, ?_, ?_, ?_, ?_⟩
      · rw [h1]
        exact filter_sublist posts
      · intro p hp hne
        rw [h1, mem_filter]
        exact ⟨hp, by simp [hne]⟩
      · intro p hp
        rw [h1, mem_filter] at hp
        simpa using hp.2
      · intro hnd
        rw [h1]
        exact filter_ne_length posts pid hnd hex
      · simp [delete_post, hsome]

/-- Closed instance of the C7 theorem: deleting id 9999 is a 404 naming the
id; deleting id 1 removes exactly one record and returns 200. -/
theorem delete_post_spec_witness :
    delete_post POSTS 9999 =
      (POSTS, .notFound ("Post with id " ++ toString 9999 ++ " not found."), 404) ∧
    (delete_post POSTS 1).1.length = POSTS.length - 1 ∧
    (delete_post POSTS 1).2 =
      (.deleted ("Post with id " ++ toString 1 ++
         " has been deleted successfully."), 200) :=
  ⟨(delete_post_spec POSTS 9999).1 (by decide),
   ((delete_post_spec POSTS 1).2 (by decide)).2.2.2.2.1 (by decide),
   ((delete_post_spec POSTS 1).2 (by decide)).2.2.2.2.2⟩

/-! ### Update -/

/-- The in-place mutation rewrites exactly the first matching entry. -/
lemma updateFirst_append (pid : Nat) (d : UpdateData) (l1 l2 : List Post) (p : Post)
    (hp : p.id = pid) (h1 : ∀ q ∈ l1, q.id ≠ pid) :
    updateFirst pid d (l1 ++ p :: l2) =
      l1 ++ ⟨p.id, d.title.getD p.title, d.content.getD p.content⟩ :: l2 := by
  induction l1 with
  | nil =>
    simp [updateFirst, hp]
  | cons a t ih =>
    have ha : (a.id == pid) = false := by
      simp [h1 a (mem_cons_self a t)]
    simp only [cons_append, updateFirst, ha, Bool.false_eq_true, if_false]
    exact congrArg (List.cons a) (ih fun q hq => h1 q (mem_cons_of_mem a hq))

/-- Locating a post by id finds the first matching entry. -/
lemma find?_first (pid : Nat) (l1 l2 : List Post) (p : Post)
    (hp : p.id = pid) (h1 : ∀ q ∈ l1, q.id ≠ pid) :
    (l1 ++ p :: l2).find? (fun post => post.id == pid) = some p := by
  rw [find?_append]
  have h0 : l1.find? (fun post => post.id == pid) = none := by
    rw [find?_eq_none]
    intro x hx
    simp [h1 x hx]
  rw [h0, Option.none_or]
  exact find?_cons_of_pos l2 (by simp [hp])

/-- C8: update on an unknown id fails with 404 and leaves the collection
unchanged; on an existing id it rewrites only the first matching record,
replacing exactly the supplied fields, keeping its id, the absent fields and
every other post, and returns the updated record with 200. -/
theorem update_post_spec :
    (∀ (posts : List Post) (pid : Nat) (d : UpdateData),
       (∀ q ∈ posts, q.id ≠ pid) →
       update_post posts pid d =
         (posts, .notFound ("Post with id " ++ toString pid ++ " not found."), 404)) ∧
    (∀ (l1 l2 : List Post) (p : Post) (pid : Nat) (d : UpdateData),
       p.id = pid → (∀ q ∈ l1, q.id ≠ pid) →
       update_post (l1 ++ p :: l2) pid d =
         (l1 ++ ⟨p.id, d.title.getD p.title, d.content.getD p.content⟩ :: l2,
          .updated ⟨p.id, d.title.getD p.title, d.content.getD p.content⟩, 200)) := by
  constructor
  · intro posts pid d hall
    have hf : posts.find? (fun post => post.id == pid) = none := by
      rw [find?_eq_none]
      intro x hx
      simp [hall x hx]
    simp [update_post, hf]
  · intro l1 l2 p pid d hp h1
    have hf := find?_first pid l1 l2 p hp h1
    simp [update_post, hf, updateFirst_append pid d l1 l2 p hp h1]

/-- Closed instance of the C8 theorem: updating id 2 with only a title keeps
the content unchanged; updating id 9999 is a 404 leaving the collection
unchanged. -/
theorem update_post_spec_witness :
    update_post POSTS 9999 ⟨some "N", none⟩ =
      (POSTS, .notFound ("Post with id " ++ toString 9999 ++ " not found."), 404) ∧
    update_post ([⟨1, "First post", "This is the first post."⟩] ++
        (⟨2, "Second post", "This is the second post."⟩ : Post) :: []) 2 ⟨some "N", none⟩ =
      ([⟨1, "First post", "This is the first post."⟩] ++
        (⟨2, "N", "This is the second post."⟩ : Post) :: [],
       .updated ⟨2, "N", "This is the second post."⟩, 200) :=
  ⟨update_post_spec.1 POSTS 9999 ⟨some "N", none⟩ (by decide),
   update_post_spec.2 [⟨1, "First post", "This is the first post."⟩] []
     ⟨2, "Second post", "This is the second post."⟩ 2 ⟨some "N", none⟩ rfl (by decide)⟩

/-! ### List-with-sort -/

instance (f : String) : IsTotal Post (keyLe f) :=
  ⟨fun a b => le_total (keyOf f a) (keyOf f b)⟩

instance (f : String) : IsTrans Post (keyLe f) :=
  ⟨fun _ _ _ h1 h2 => le_trans h1 h2⟩

instance (f : String) : IsTotal Post (keyGe f) :=
  ⟨fun a b => le_total (keyOf f b) (keyOf f a)⟩

instance (f : String) : IsTrans Post (keyGe f) :=
  ⟨fun _ _ _ h1 h2 => le_trans h2 h1⟩

/-- C3: for every collection, valid sort field and direction, list-with-sort
returns 200 and a permutation of the stored posts (same length, same
elements) ordered by the case-insensitive key comparison on the requested
field, reversed for desc, and stably: posts with equal keys keep their
storage order; with sort absent the collection comes back in storage order
with 200. -/
theorem get_posts_sorted_spec :
    (∀ (posts : List Post) (f d : String),
       f ∈ valid_sort_fields → d ∈ (["asc", "desc"] : List String) →
       (get_posts posts (some f) (some d)).2 = 200 ∧
       ∃ out, (get_posts posts (some f) (some d)).1 = GetResp.ok out ∧
         out.Perm posts ∧
         out.length = posts.length ∧
         out.Sorted (if d = "desc" then keyGe f else keyLe f) ∧
         (∀ a b, keyOf f a = keyOf f b → [a, b] <+ posts → [a, b] <+ out)) ∧
    (∀ posts : List Post, get_posts posts none none = (.ok posts, 200)) := by
  constructor
  · intro posts f d hf hd
    have hf2 : f = "title" ∨ f = "content" := by simpa [valid_sort_fields] using hf
    have hd2 : d = "asc" ∨ d = "desc" := by simpa using hd
    rcases hf2 with rfl | rfl <;> rcases hd2 with rfl | rfl
    · refine ⟨rfl, insertionSort (keyLe "title") posts, rfl, perm_insertionSort _ _,
        length_insertionSort _ _, ?_, ?_⟩
      · rw [if_neg (by decide)]
        exact sorted_insertionSort _ posts
      · intro a b hk hsub
        exact pair_sublist_insertionSort (le_of_eq hk) hsub
    · refine ⟨rfl, insertionSort (keyGe "title") posts, rfl, perm_insertionSort _ _,
        length_insertionSort _ _, ?_, ?_⟩
      · rw [if_pos rfl]
        exact sorted_insertionSort _ posts
      · intro a b hk hsub
        exact pair_sublist_insertionSort (le_of_eq hk.symm) hsub
    · refine ⟨rfl, insertionSort (keyLe "content") posts, rfl, perm_insertionSort _ _,
        length_insertionSort _ _, ?_, ?_⟩
      · rw [if_neg (by decide)]
        exact sorted_insertionSort _ posts
      · intro a b hk hsub
        exact pair_sublist_insertionSort (le_of_eq hk) hsub
    · refine ⟨rfl, insertionSort (keyGe "content") posts, rfl, perm_insertionSort _ _,
        length_insertionSort _ _, ?_, ?_⟩
      · rw [if_pos rfl]
        exact sorted_insertionSort _ posts
      · intro a b hk hsub
        exact pair_sublist_insertionSort (le_of_eq hk.symm) hsub
  · intro posts
    rfl

/-- Closed instance of the C3 theorem: sorting the seeded collection by
title, descending. -/
theorem get_posts_sorted_spec_witness :
    (get_posts POSTS (some "title") (some "desc")).2 = 200 ∧
    ∃ out, (get_posts POSTS (some "title") (some "desc")).1 = GetResp.ok out ∧
      out.Perm POSTS ∧
      out.length = POSTS.length ∧
      out.Sorted (if ("desc" : String) = "desc" then keyGe "title" else keyLe "title") ∧
      (∀ a b, keyOf "title" a = keyOf "title" b → [a, b] <+ POSTS → [a, b] <+ out) :=
  get_posts_sorted_spec.1 POSTS "title" "desc" (by decide) (by decide)

/-- C4, counterexample to the claim as stated: the supplied direction "ASC"
is not in the valid direction set and the supplied sort "" is not in the
valid sort fields, yet list-with-sort answers 200, not 400, in both cases. -/
theorem get_posts_invalid_param_cex :
    ("ASC" ∉ (["asc", "desc"] : List String)) ∧
    (get_posts POSTS (some "title") (some "ASC")).2 = 200 ∧
    ("" ∉ valid_sort_fields) ∧
    (get_posts POSTS (some "") none).2 = 200 :=
  ⟨by decide, by decide, by decide, by decide⟩

/-- C4 as amended: list-with-sort fails with the invalid-sort-field error
(400, the body enumerating the valid fields) whenever the supplied sort value
is non-empty and not in the valid fields, so sort=id always yields 400, and
it fails with a 400 error body whenever the lower-cased supplied direction is
neither asc nor desc. -/
theorem get_posts_invalid_param :
    (∀ (posts : List Post) (dirArg : Option String) (s : String),
       s ≠ "" → s ∉ valid_sort_fields →
       get_posts posts (some s) dirArg =
         (.invalid "Invalid sort field. Valid fields are: ['title', 'content']", 400)) ∧
    (∀ (posts : List Post) (sortArg dirArg : Option String),
       strLower (dirArg.getD "asc") ∉ (["asc", "desc"] : List String) →
       (get_posts posts sortArg dirArg).2 = 400 ∧
       ∃ m, (get_posts posts sortArg dirArg).1 = GetResp.invalid m) ∧
    (∀ (posts : List Post) (dirArg : Option String),
       get_posts posts (some "id") dirArg =
         (.invalid "Invalid sort field. Valid fields are: ['title', 'content']", 400)) := by
  refine ⟨?_, ?_, fun posts dirArg => rfl⟩
  · intro posts dirArg s hs hmem
    have hs' : s.isEmpty = false := by
      rw [← Bool.not_eq_true, String.isEmpty_iff]
      exact hs
    have hc : valid_sort_fields.contains s = false := by
      rw [← Bool.not_eq_true]
      intro hct
      exact hmem (elem_iff.mp hct)
    have hctrue : (truthy (some s) &&
        !(valid_sort_fields.contains (Option.getD (some s) ""))) = true := by
      simp [truthy, hs', hc, hmem]
    simp only [get_posts]
    rw [if_pos hctrue]
  · intro posts sortArg dirArg hdir
    have hd : ((["asc", "desc"] : List String).contains (strLower (dirArg.getD "asc"))) =
        false := by
      rw [← Bool.not_eq_true]
      intro hct
      exact hdir (elem_iff.mp hct)
    have hdtrue : (!((["asc", "desc"] : List String).contains
        (strLower (Option.getD dirArg "asc")))) = true := by
      rw [hd]
      rfl
    by_cases h1 : (truthy sortArg && !(valid_sort_fields.contains (sortArg.getD ""))) = true
    · have hres : get_posts posts sortArg dirArg =
          (.invalid "Invalid sort field. Valid fields are: ['title', 'content']", 400) := by
        simp only [get_posts]
        rw [if_pos h1]
      rw [hres]
      exact ⟨rfl, _, rfl⟩
    · have hres : get_posts posts sortArg dirArg =
          (.invalid "Invalid sort direction. Valid directions are: 'asc', 'desc'", 400) := by
        simp only [get_posts]
        rw [if_neg h1, if_pos hdtrue]
      rw [hres]
      exact ⟨rfl, _, rfl⟩

/-- Closed instance of the amended C4 theorem: sort=id yields the 400
invalid-field error, and a direction whose lower-casing is invalid yields a
400 error body. -/
theorem get_posts_invalid_param_witness :
    get_posts POSTS (some "id") none =
      (.invalid "Invalid sort field. Valid fields are: ['title', 'content']", 400) ∧
    ((get_posts POSTS none (some "down")).2 = 400 ∧
     ∃ m, (get_posts POSTS none (some "down")).1 = GetResp.invalid m) :=
  ⟨get_posts_invalid_param.1 POSTS none "id" (by decide) (by decide),
   get_posts_invalid_param.2.1 POSTS none (some "down") (by decide)⟩

/-- C10: a sort query parameter supplied as the empty string behaves exactly
like an absent sort parameter: the collection comes back in storage order
with status 200 (the empty string is falsy, so validation is skipped), not
as an invalid-parameter error. -/
theorem get_posts_empty_sort :
    (∀ (posts : List Post) (dirArg : Option String),
       get_posts posts (some "") dirArg = get_posts posts none dirArg) ∧
    (∀ posts : List Post, get_posts posts (some "") none = (.ok posts, 200)) :=
  ⟨fun _ _ => rfl, fun _ => rfl⟩
